import Mathlib

/-!
Shallow embedding of the corpus-analysis pipeline of `src/main.py`
(`LiteratureAnalyzer`): text aggregation (`extract_common_themes`, line 137),
theme keyword selection (lines 157-164), reference analysis
(`analyze_references`, lines 171-195) and report synthesis
(`generate_review`, lines 197-216).

Modelling conventions:
- A Python paper dict is a `Paper` record whose four fields are `Option`s;
  `none` models an absent key.  A dict is truthy iff it is non-empty, so
  `python_truthy` is "some field is present", and the guard
  `if paper and 'references' in paper` reduces to `p.references.isSome`
  (a present `references` key already makes the dict non-empty).
- Python's `s[:n]` slice on a string is `python_slice_to`: the first `n`
  code points.  Python `len` on a string counts code points, as does
  `String.length`.
- Python `set` values are `Finset String`; `set.update` is `∪` with the
  list's `toFinset`, `set.intersection_update` is `∩`.
- The TF-IDF vectorizer and the NMF factorization are external
  floating-point library calls; their combined outcome is modelled as an
  oracle argument `factor : List String → Option FactorizationResult`
  mapping the aggregated texts to either a result (`feature_names` and the
  theme×term matrix `components_`, with weights as rationals) or `none`
  (the exception path, caught at lines 167-169).  Everything downstream of
  that call is embedded from the source.
- numpy's `argsort` on a row is modelled as a sort of the index range by
  weight (`argsort`); `[:-10:-1]` on a list of length n is the last
  min 9 n elements in reverse order, i.e. `reverse.take 9`.
-/

set_option maxRecDepth 4000

namespace InnoSynth

/-- One ingested paper record, as produced by `GrobidClient.process_pdf`:
a dict with keys `title`, `abstract`, `body`, `references`; each field is
`none` when the key is absent. -/
structure Paper where
  title : Option String
  abstract : Option String
  body : Option String
  references : Option (List String)
deriving DecidableEq, Repr

/-- Python truthiness of the paper dict: non-empty, i.e. at least one key
present. -/
def python_truthy (p : Paper) : Bool :=
  p.title.isSome || p.abstract.isSome || p.body.isSome || p.references.isSome

/-- Python truthiness of `paper.get(k)` for a string field: the key is
present and its value is a non-empty string. -/
def python_truthy_str : Option String → Bool
  | none => false
  | some s => s != ""

/-- Python's `s[:n]` slice: the first `n` code points of `s`. -/
def python_slice_to (s : String) (n : Nat) : String :=
  ⟨s.data.take n⟩

/-- Text aggregation, line 137 of `src/main.py`:
`f"{paper.get('title', '')} {paper.get('abstract', '')} {paper.get('body', '')}"`. -/
def aggregate_text (p : Paper) : String :=
  p.title.getD "" ++ " " ++ p.abstract.getD "" ++ " " ++ p.body.getD ""

/-- Aggregation as worded by the specification (section 4.1): the
concatenation of title, abstract and body, space-separated, missing
fields treated as empty strings.  Kept separate from `aggregate_text`
so the two can be compared. -/
def aggregate_text_spec (p : Paper) : String :=
  (p.title.getD "") ++ " " ++ (p.abstract.getD "") ++ " " ++ (p.body.getD "")

/-- The statistics record built by `analyze_references` (lines 174-193).
`avg_references_per_paper` is a Python float obtained by dividing one
integer by another, modelled exactly as a rational. -/
structure ReferenceStats where
  total_references : Nat
  common_references : Finset String
  avg_references_per_paper : ℚ

/-- One iteration of the loop at lines 180-187: skip papers that are falsy
or lack a `references` key (equivalently, whose `references` field is
`none`); otherwise add the list length to the running total and update the
common set — by union when the running set is empty (`len(...) == 0`), by
intersection otherwise. -/
def refs_step (acc : Nat × Finset String) (p : Paper) : Nat × Finset String :=
  match p.references with
  | none => acc
  | some refs =>
      (acc.1 + refs.length,
       if acc.2 = ∅ then acc.2 ∪ refs.toFinset else acc.2 ∩ refs.toFinset)

/-- The whole loop of lines 180-187, started from `total=0`, `common=∅`. -/
def refs_fold (papers : List Paper) : Nat × Finset String :=
  papers.foldl refs_step (0, ∅)

/-- `LiteratureAnalyzer.analyze_references`, lines 171-195: the loop above,
then the average guarded by `if self.papers_data else 0` (note the average
divides by the length of the whole list, skipped papers included). -/
def analyze_references (papers : List Paper) : ReferenceStats :=
  { total_references := (refs_fold papers).1
    common_references := (refs_fold papers).2
    avg_references_per_paper :=
      if papers = [] then 0
      else ((refs_fold papers).1 : ℚ) / (papers.length : ℚ) }

/-- One extracted theme, lines 161-164: a positional label and the
selected keywords. -/
structure Theme where
  theme : String
  keywords : List String
deriving DecidableEq, Repr

/-- numpy `topic.argsort()`: the indices `0 .. topic.length - 1` sorted so
that the corresponding weights are ascending.  (numpy's default sort is
unstable among equal weights; a stable sort is one of its permitted
outcomes.) -/
def argsort (topic : List ℚ) : List Nat :=
  List.insertionSort (fun i j => topic.getD i 0 ≤ topic.getD j 0)
    (List.range topic.length)

/-- Line 160: `[feature_names[i] for i in topic.argsort()[:-10:-1]]` — the
indices of the (up to) 9 largest weights, in descending weight order,
mapped to feature names. -/
def top_words (feature_names : List String) (topic : List ℚ) : List String :=
  ((argsort topic).reverse.take 9).map fun i => feature_names.getD i ""

/-- Lines 158-164: one theme per row of the theme×term matrix, labeled by
its 1-based position. -/
def themes_from_components (feature_names : List String)
    (components : List (List ℚ)) : List Theme :=
  components.enum.map fun ic =>
    { theme := "主题 " ++ toString (ic.1 + 1)
      keywords := top_words feature_names ic.2 }

/-- The outcome of the external vectorize-and-factorize stage (lines
144-155): the vectorizer's `feature_names` and the non-negative
factorization's theme×term matrix `components_`. -/
structure FactorizationResult where
  feature_names : List String
  components : List (List ℚ)

/-- `LiteratureAnalyzer.extract_common_themes`, lines 126-169: return `[]`
on an empty store; aggregate text for every truthy paper; return `[]` when
no texts remain; run the external factorization (oracle `factor`),
converting any exception (`none`) to `[]`; otherwise build the themes from
the resulting matrix. -/
def extract_common_themes (papers : List Paper)
    (factor : List String → Option FactorizationResult) : List Theme :=
  if papers = [] then []
  else
    let texts := (papers.filter python_truthy).map aggregate_text
    if texts = [] then []
    else
      match factor texts with
      | none => []
      | some fr => themes_from_components fr.feature_names fr.components

/-- One entry of `papers_summary`, lines 208-212. -/
structure PaperSummary where
  title : String
  abstract : String
deriving DecidableEq, Repr

/-- Lines 209-211: title defaults to `"Unknown Title"` only when the key
is absent; the abstract is `paper.get('abstract', ...)[:500] + '...'` when
`paper.get('abstract')` is truthy (present and non-empty), the default
string otherwise. -/
def summary_of_paper (p : Paper) : PaperSummary :=
  { title := p.title.getD "Unknown Title"
    abstract :=
      if python_truthy_str p.abstract then
        python_slice_to (p.abstract.getD "No abstract available") 500 ++ "..."
      else "No abstract available" }

/-- The review record assembled at lines 203-216. -/
structure Review where
  total_papers : Nat
  common_themes : List Theme
  reference_analysis : ReferenceStats
  papers_summary : List PaperSummary
  timestamp : String

/-- `LiteratureAnalyzer.generate_review`, lines 197-216 (the in-memory
record; serialization is I/O outside the core).  The timestamp is read
from the clock, an external input, so it is a parameter. -/
def generate_review (papers : List Paper)
    (factor : List String → Option FactorizationResult)
    (timestamp : String) : Review :=
  { total_papers := papers.length
    common_themes := extract_common_themes papers factor
    reference_analysis := analyze_references papers
    papers_summary := (papers.filter python_truthy).map summary_of_paper
    timestamp := timestamp }

/-- Concrete paper with an empty reference list. -/
def paper_no_refs : Paper := ⟨some "t0", none, none, some []⟩

/-- Concrete paper citing only `"X"`. -/
def paper_x : Paper := ⟨some "tx", none, none, some ["X"]⟩

/-- Concrete paper citing only `"A"`. -/
def paper_a : Paper := ⟨some "ta", none, none, some ["A"]⟩

/-- Concrete paper citing only `"B"`. -/
def paper_b : Paper := ⟨some "tb", none, none, some ["B"]⟩

/-- Concrete paper citing only `"C"`. -/
def paper_c : Paper := ⟨some "tc", none, none, some ["C"]⟩

/-- A 501-character abstract, for exercising the truncation rule. -/
def long_abstract : String := ⟨List.replicate 501 'x'⟩

/-- An oracle standing for a factorization run whose vectorizer found only
three vocabulary terms (reachable: `min_df=2` with `max_df=0.95` leaves
exactly the terms occurring in exactly 2 of 3 documents). -/
def small_factor : List String → Option FactorizationResult :=
  fun _ => some ⟨["a", "b", "c"], [[1, 2, 3], [3, 1, 2], [2, 3, 1], [1, 3, 2], [2, 1, 3]]⟩

/-! ## Lemmas about the reference-analysis fold -/

/-- Appending one paper to the corpus performs exactly one further step of
the loop of lines 180-187. -/
theorem refs_fold_append (l : List Paper) (p : Paper) :
    refs_fold (l ++ [p]) = refs_step (refs_fold l) p := by
  simp [refs_fold, List.foldl_append]

/-- The running total component of the loop accumulates the reference-list
lengths, whatever the starting accumulator. -/
theorem foldl_refs_step_fst (l : List Paper) :
    ∀ acc : Nat × Finset String,
      (l.foldl refs_step acc).1
        = acc.1 + (l.map fun p => (p.references.getD []).length).sum := by
  induction l with
  | nil => intro acc; simp
  | cons p t ih =>
      intro acc
      rw [List.foldl_cons, ih]
      cases h : p.references with
      | none => simp [refs_step, h]
      | some refs => simp [refs_step, h, Nat.add_assoc]

/-- The final total is the sum of the reference-list lengths (0 for papers
without a `references` key). -/
theorem refs_fold_fst (l : List Paper) :
    (refs_fold l).1 = (l.map fun p => (p.references.getD []).length).sum := by
  simpa [refs_fold] using foldl_refs_step_fst l (0, ∅)

/-- Papers without a `references` key are skipped by the loop. -/
theorem foldl_refs_step_no_refs (tail : List Paper)
    (h : ∀ q ∈ tail, q.references = none) :
    ∀ acc : Nat × Finset String, tail.foldl refs_step acc = acc := by
  induction tail with
  | nil => intro acc; rfl
  | cons q t ih =>
      intro acc
      rw [List.foldl_cons]
      have hq : q.references = none := h q (List.mem_cons_self q t)
      rw [show refs_step acc q = acc from by simp [refs_step, hq]]
      exact ih (fun r hr => h r (List.mem_cons_of_mem _ hr)) acc

/-! ## Claims C1 to C4 -/

/-- Claim C1, counterexample: a corpus holding a paper with an empty
reference list and one further paper for which `common_references` is NOT
empty — the test at line 184 is `len(common) == 0`, so the second paper
re-seeds the set. -/
theorem C1_counterexample :
    (analyze_references [paper_no_refs, paper_x]).common_references ≠ ∅ := by
  decide

/-- Claim C1, amended: the total accumulates each paper's reference-list
length, but the common set is re-seeded (by union) whenever the running
set is empty and intersected otherwise; consequently it is emptied for the
whole corpus only when the LAST paper carrying a `references` key has an
empty list. -/
theorem C1_amended_reseeding (l : List Paper) (p : Paper) (refs : List String)
    (h : p.references = some refs) :
    (analyze_references (l ++ [p])).total_references
        = (analyze_references l).total_references + refs.length
  ∧ (analyze_references (l ++ [p])).common_references
        = (if (analyze_references l).common_references = ∅
           then (analyze_references l).common_references ∪ refs.toFinset
           else (analyze_references l).common_references ∩ refs.toFinset)
  ∧ (refs = [] → (analyze_references (l ++ [p])).common_references = ∅) := by
  have hfold := refs_fold_append l p
  refine ⟨?_, ?_, ?_⟩
  · show (refs_fold (l ++ [p])).1 = (refs_fold l).1 + refs.length
    rw [hfold]; simp [refs_step, h]
  · show (refs_fold (l ++ [p])).2 = _
    rw [hfold]; simp [refs_step, h]; rfl
  · intro hrefs
    subst hrefs
    show (refs_fold (l ++ [p])).2 = ∅
    rw [hfold]
    by_cases hc : (refs_fold l).2 = ∅ <;> simp [refs_step, h, hc]

/-- Witness for `C1_amended_reseeding` at a concrete corpus: the last
paper has an empty reference list, so the common set collapses. -/
theorem C1_amended_reseeding_witness :
    paper_no_refs.references = some ([] : List String)
  ∧ (analyze_references ([paper_x] ++ [paper_no_refs])).common_references = ∅ :=
  ⟨rfl, (C1_amended_reseeding [paper_x] paper_no_refs [] rfl).2.2 rfl⟩

/-- Claim C2, counterexample: once an intermediate intersection empties
the running set, the next appended paper re-seeds it, so the final
`common_references` can strictly grow when a paper is appended. -/
theorem C2_counterexample :
    ¬ ((analyze_references ([paper_a, paper_b] ++ [paper_c])).common_references
        ⊆ (analyze_references [paper_a, paper_b]).common_references) := by
  decide

/-- Claim C2, amended: appending one paper shrinks (or preserves)
`common_references` provided the set computed for the original corpus is
non-empty. -/
theorem C2_guarded_monotonicity (l : List Paper) (p : Paper)
    (h : (analyze_references l).common_references ≠ ∅) :
    (analyze_references (l ++ [p])).common_references
      ⊆ (analyze_references l).common_references := by
  have hfold := refs_fold_append l p
  show (refs_fold (l ++ [p])).2 ⊆ (refs_fold l).2
  rw [hfold]
  cases hp : p.references with
  | none => simp [refs_step, hp]
  | some refs =>
      have h2 : ¬ (refs_fold l).2 = ∅ := h
      simp only [refs_step, hp]
      rw [if_neg h2]
      exact Finset.inter_subset_left

/-- Witness for `C2_guarded_monotonicity` at a concrete corpus. -/
theorem C2_guarded_monotonicity_witness :
    (analyze_references [paper_a]).common_references ≠ ∅
  ∧ (analyze_references ([paper_a] ++ [paper_b])).common_references
      ⊆ (analyze_references [paper_a]).common_references :=
  ⟨by decide, C2_guarded_monotonicity [paper_a] paper_b (by decide)⟩

/-- Claim C3, counterexample: `common_references` is NOT a subset of every
paper's reference set — after re-seeding it can contain references absent
from an earlier paper's list. -/
theorem C3_counterexample :
    paper_a ∈ [paper_a, paper_b, paper_c]
  ∧ paper_a.references = some ["A"]
  ∧ ¬ ((analyze_references [paper_a, paper_b, paper_c]).common_references
        ⊆ (["A"] : List String).toFinset) := by
  decide

/-- Claim C3, amended: `common_references` is empty on the empty corpus
and is a subset of the reference set of the LAST paper carrying a
`references` key (every later paper lacking the key is skipped); the
claimed containment in every paper's set fails. -/
theorem C3_last_paper_bound :
    (analyze_references ([] : List Paper)).common_references = ∅
  ∧ ∀ (l : List Paper) (p : Paper) (refs : List String) (tail : List Paper),
      p.references = some refs → (∀ q ∈ tail, q.references = none) →
      (analyze_references (l ++ p :: tail)).common_references ⊆ refs.toFinset := by
  refine ⟨rfl, ?_⟩
  intro l p refs tail hp htail
  show (refs_fold (l ++ p :: tail)).2 ⊆ refs.toFinset
  have hsplit : l ++ p :: tail = (l ++ [p]) ++ tail := by simp
  rw [hsplit]
  have : refs_fold ((l ++ [p]) ++ tail) = refs_fold (l ++ [p]) := by
    rw [refs_fold, List.foldl_append]
    exact foldl_refs_step_no_refs tail htail _
  rw [this, refs_fold_append]
  by_cases hc : (refs_fold l).2 = ∅
  · simp [refs_step, hp, hc]
  · simp only [refs_step, hp, hc, if_false]
    exact Finset.inter_subset_right

/-- Witness for `C3_last_paper_bound` at a concrete corpus. -/
theorem C3_last_paper_bound_witness :
    paper_c.references = some ["C"]
  ∧ (analyze_references ([paper_a, paper_b] ++ paper_c :: [])).common_references
      ⊆ (["C"] : List String).toFinset :=
  ⟨rfl, C3_last_paper_bound.2 [paper_a, paper_b] paper_c ["C"] [] rfl
    (by intro q hq; cases hq)⟩

/-- Claim C4, counterexample: reference analysis is NOT order-independent
for `common_references`: permuting the corpus changes the result. -/
theorem C4_counterexample :
    ([paper_a, paper_b, paper_c] : List Paper).Perm [paper_c, paper_b, paper_a]
  ∧ (analyze_references [paper_a, paper_b, paper_c]).common_references
      ≠ (analyze_references [paper_c, paper_b, paper_a]).common_references := by
  decide

/-- Claim C4, amended: `total_references` and `avg_references_per_paper`
are invariant under permutation of the corpus; `common_references` is not
(see the counterexample). -/
theorem C4_total_avg_invariant (l l' : List Paper) (h : l.Perm l') :
    (analyze_references l).total_references
        = (analyze_references l').total_references
  ∧ (analyze_references l).avg_references_per_paper
        = (analyze_references l').avg_references_per_paper := by
  have htot : (refs_fold l).1 = (refs_fold l').1 := by
    rw [refs_fold_fst, refs_fold_fst]
    exact List.Perm.sum_eq (h.map _)
  refine ⟨htot, ?_⟩
  by_cases hl : l = []
  · subst hl
    have hl' : l' = [] := h.symm.eq_nil
    simp [analyze_references, hl']
  · have hl' : l' ≠ [] := fun hn => hl ((hn ▸ h : l.Perm []).eq_nil)
    simp [analyze_references, hl, hl', htot, h.length_eq]

/-- Witness for `C4_total_avg_invariant` at a concrete permutation pair. -/
theorem C4_total_avg_invariant_witness :
    ([paper_a, paper_b] : List Paper).Perm [paper_b, paper_a]
  ∧ ((analyze_references [paper_a, paper_b]).total_references
        = (analyze_references [paper_b, paper_a]).total_references
    ∧ (analyze_references [paper_a, paper_b]).avg_references_per_paper
        = (analyze_references [paper_b, paper_a]).avg_references_per_paper) :=
  ⟨by decide, C4_total_avg_invariant [paper_a, paper_b] [paper_b, paper_a] (by decide)⟩

/-! ## Claims C5, C6, C7, C10 -/

/-- Claim C5: the summarized abstract is the first 500 characters followed
by `"..."` when the abstract is present and longer than 500 characters;
it is the full text followed by `"..."` for a present non-empty abstract
of at most 500 characters, and the default string when absent. -/
theorem C5_truncation (p : Paper) :
    (∀ a, p.abstract = some a → 500 < a.length →
      (summary_of_paper p).abstract = python_slice_to a 500 ++ "...")
  ∧ (∀ a, p.abstract = some a → a ≠ "" → a.length ≤ 500 →
      (summary_of_paper p).abstract = a ++ "...")
  ∧ (p.abstract = none → (summary_of_paper p).abstract = "No abstract available") := by
  refine ⟨?_, ?_, ?_⟩
  · intro a ha hlen
    have hne : a ≠ "" := by
      intro he
      subst he
      simp [String.length] at hlen
    simp [summary_of_paper, python_truthy_str, ha, hne]
  · intro a ha hne hlen
    have hsl : python_slice_to a 500 = a := by
      simp only [python_slice_to]
      rw [List.take_of_length_le hlen]
    simp [summary_of_paper, python_truthy_str, ha, hne, hsl]
  · intro ha
    simp [summary_of_paper, python_truthy_str, ha]

/-- Witness for `C5_truncation` on a 501-character abstract. -/
theorem C5_truncation_witness :
    (⟨none, some long_abstract, none, none⟩ : Paper).abstract = some long_abstract
  ∧ 500 < long_abstract.length
  ∧ (summary_of_paper ⟨none, some long_abstract, none, none⟩).abstract
      = python_slice_to long_abstract 500 ++ "..." :=
  ⟨rfl, by simp [long_abstract, String.length],
   (C5_truncation ⟨none, some long_abstract, none, none⟩).1 long_abstract rfl
     (by simp [long_abstract, String.length])⟩

/-- Claim C6: text aggregation agrees with the specification's wording —
the space-separated concatenation of title, abstract and body with absent
fields contributing the empty string — and its character content is
exactly the present fields' characters plus the two separator spaces, so
no sentinel marker for an absent field can appear. -/
theorem C6_aggregation_total (p : Paper) :
    aggregate_text p = aggregate_text_spec p
  ∧ (aggregate_text p).data
      = (p.title.getD "").data ++ [' '] ++ (p.abstract.getD "").data
          ++ [' '] ++ (p.body.getD "").data :=
  ⟨rfl, rfl⟩

/-- Claim C7: on the empty corpus, theme extraction returns no themes,
reference analysis returns zero total, an empty common set and average 0,
and the review record still carries `total_papers = 0` with an empty
summary list. -/
theorem C7_empty_corpus (factor : List String → Option FactorizationResult)
    (ts : String) :
    extract_common_themes [] factor = []
  ∧ (analyze_references []).total_references = 0
  ∧ (analyze_references []).common_references = ∅
  ∧ (analyze_references []).avg_references_per_paper = 0
  ∧ (generate_review [] factor ts).total_papers = 0
  ∧ (generate_review [] factor ts).papers_summary = [] :=
  ⟨rfl, rfl, rfl, rfl, rfl, rfl⟩

/-- Claim C10: a present-but-empty abstract is falsy in Python, so line
211's conditional takes the default branch: the summary shows
`"No abstract available"`, never the empty string with an ellipsis. -/
theorem C10_empty_abstract_default (t b : Option String) (r : Option (List String)) :
    (summary_of_paper ⟨t, some "", b, r⟩).abstract = "No abstract available"
  ∧ (summary_of_paper ⟨t, some "", b, r⟩).abstract ≠ python_slice_to "" 500 ++ "..." := by
  refine ⟨?_, ?_⟩ <;>
    simp [summary_of_paper, python_truthy_str, python_slice_to]

/-! ## Lemmas about keyword selection (lines 157-164) -/

/-- The argsort index list carries the weights in ascending order. -/
theorem argsort_sorted (row : List ℚ) :
    List.Sorted (fun i j => row.getD i 0 ≤ row.getD j 0) (argsort row) := by
  haveI : IsTotal Nat (fun i j => row.getD i 0 ≤ row.getD j 0) :=
    ⟨fun a b => le_total _ _⟩
  haveI : IsTrans Nat (fun i j => row.getD i 0 ≤ row.getD j 0) :=
    ⟨fun a b c hab hbc => le_trans hab hbc⟩
  exact List.sorted_insertionSort _ _

/-- The argsort index list is a permutation of all the row's indices. -/
theorem argsort_perm_range (row : List ℚ) :
    (argsort row).Perm (List.range row.length) :=
  List.perm_insertionSort _ _

/-- The argsort index list has one entry per row entry. -/
theorem argsort_length (row : List ℚ) : (argsort row).length = row.length := by
  rw [(argsort_perm_range row).length_eq, List.length_range]

/-- Along the selected indices (`[:-10:-1]`), weights are descending. -/
theorem argsort_desc_take_pairwise (row : List ℚ) :
    List.Pairwise (fun a b => row.getD b 0 ≤ row.getD a 0)
      ((argsort row).reverse.take 9) := by
  have h₁ : List.Pairwise (fun a b => row.getD b 0 ≤ row.getD a 0)
      (argsort row).reverse :=
    List.pairwise_reverse.mpr (argsort_sorted row)
  exact List.Pairwise.sublist (List.take_sublist 9 _) h₁

/-- Every index not selected by `[:-10:-1]` has weight at most that of
every selected index: the selection picks maximal-weight terms. -/
theorem argsort_take_top (row : List ℚ) :
    ∀ j < row.length, j ∉ (argsort row).reverse.take 9 →
      ∀ a ∈ (argsort row).reverse.take 9, row.getD j 0 ≤ row.getD a 0 := by
  intro j hj hnot a ha
  have hpw : List.Pairwise (fun a b => row.getD b 0 ≤ row.getD a 0)
      (argsort row).reverse :=
    List.pairwise_reverse.mpr (argsort_sorted row)
  have hjmem : j ∈ (argsort row).reverse := by
    rw [List.mem_reverse]
    exact ((argsort_perm_range row).mem_iff).mpr (List.mem_range.mpr hj)
  have hsplit := List.take_append_drop 9 (argsort row).reverse
  have hdrop : j ∈ (argsort row).reverse.drop 9 := by
    rcases List.mem_append.mp (hsplit ▸ hjmem) with h | h
    · exact absurd h hnot
    · exact h
  have hpw2 : List.Pairwise (fun a b => row.getD b 0 ≤ row.getD a 0)
      ((argsort row).reverse.take 9 ++ (argsort row).reverse.drop 9) := by
    rw [hsplit]; exact hpw
  exact (List.pairwise_append.mp hpw2).2.2 a ha j hdrop

/-- The selection returns `min 9 V` keywords where `V` is the vocabulary
size (the row length, which sklearn guarantees equals the number of
feature names). -/
theorem top_words_length (names : List String) (row : List ℚ)
    (h : row.length = names.length) :
    (top_words names row).length = min 9 names.length := by
  simp [top_words, List.length_take, List.length_reverse, argsort_length, h]

/-- The i-th produced theme, read off through the `enumerate` loop. -/
theorem themes_from_components_getD (names : List String)
    (components : List (List ℚ)) (i : Nat) (hi : i < components.length) :
    (themes_from_components names components).getD i ⟨"", []⟩
      = ⟨"主题 " ++ toString (i + 1), top_words names (components.getD i [])⟩ := by
  have hlen : i < (themes_from_components names components).length := by
    simpa [themes_from_components, List.enum_length] using hi
  rw [List.getD_eq_getElem _ _ hlen]
  simp only [themes_from_components, List.getElem_map, List.getElem_enum]
  rw [List.getD_eq_getElem _ _ hi]

/-! ## Claim C8 -/

/-- Claim C8, counterexample: with a factorization over a 3-term
vocabulary (reachable with `min_df=2`, `max_df=0.95` on 3 documents),
theme extraction succeeds and returns themes, yet every keyword list has
length 3, not 9 — `[:-10:-1]` clamps to the row length. -/
theorem C8_counterexample :
    ((extract_common_themes [paper_a, paper_b, paper_c] small_factor).map
        fun t => t.keywords.length)
      = [3, 3, 3, 3, 3] := by
  decide

/-- Claim C8, amended: each theme is labeled by its 1-based position and
carries the `min 9 V` maximal-weight terms (`V` the vocabulary size) in
descending weight order; the length is exactly 9 only when the vocabulary
has at least 9 terms. -/
theorem C8_amended_keyword_selection (names : List String)
    (components : List (List ℚ)) (i : Nat) (hi : i < components.length)
    (hrow : (components.getD i []).length = names.length) :
    (themes_from_components names components).length = components.length
  ∧ ((themes_from_components names components).getD i ⟨"", []⟩).theme
      = "主题 " ++ toString (i + 1)
  ∧ ((themes_from_components names components).getD i ⟨"", []⟩).keywords
      = ((argsort (components.getD i [])).reverse.take 9).map
          (fun j => names.getD j "")
  ∧ ((themes_from_components names components).getD i ⟨"", []⟩).keywords.length
      = min 9 names.length
  ∧ List.Pairwise
      (fun a b =>
        (components.getD i []).getD b 0 ≤ (components.getD i []).getD a 0)
      ((argsort (components.getD i [])).reverse.take 9)
  ∧ (∀ j < (components.getD i []).length,
       j ∉ (argsort (components.getD i [])).reverse.take 9 →
       ∀ a ∈ (argsort (components.getD i [])).reverse.take 9,
         (components.getD i []).getD j 0 ≤ (components.getD i []).getD a 0) := by
  have hg := themes_from_components_getD names components i hi
  refine ⟨?_, ?_, ?_, ?_, ?_, ?_⟩
  · simp [themes_from_components, List.enum_length]
  · rw [hg]
  · rw [hg]; rfl
  · rw [hg]; exact top_words_length names _ hrow
  · exact argsort_desc_take_pairwise _
  · exact argsort_take_top _

/-- Witness for `C8_amended_keyword_selection` on the 3-term vocabulary
factorization: the first theme carries `min 9 3 = 3` keywords. -/
theorem C8_amended_keyword_selection_witness :
    (0 : Nat) < ([[1, 2, 3], [3, 1, 2], [2, 3, 1], [1, 3, 2], [2, 1, 3]] :
        List (List ℚ)).length
  ∧ ((([[1, 2, 3], [3, 1, 2], [2, 3, 1], [1, 3, 2], [2, 1, 3]] :
        List (List ℚ)).getD 0 []).length = (["a", "b", "c"] : List String).length)
  ∧ ((themes_from_components ["a", "b", "c"]
        [[1, 2, 3], [3, 1, 2], [2, 3, 1], [1, 3, 2], [2, 1, 3]]).getD 0
          ⟨"", []⟩).keywords.length
      = min 9 (["a", "b", "c"] : List String).length :=
  ⟨by decide, by decide,
   (C8_amended_keyword_selection ["a", "b", "c"]
      [[1, 2, 3], [3, 1, 2], [2, 3, 1], [1, 3, 2], [2, 1, 3]] 0
      (by decide) (by decide)).2.2.2.1⟩

end InnoSynth
